import Mathlib

/-!
A shallow embedding of `src/src/peer.rs` of the busd message-bus broker:
the per-connection `DBus` core-interface state and its method handlers
(`hello`, `get_name_owner`, `add_match`, `remove_match`), the unique-name
assignment of `Peer::new`, and the message-interest evaluator
`Peer::interested`.

Modelling conventions:
 - Rust strings are Lean `String`s; machine integers that matter (the
   connection id) are `Nat`.
 - The shared `NameRegistry` (in `crate::name_registry`, outside the
   sources given here) is represented by its `lookup` interface, a
   function from well-known names to the optional owning unique name,
   exactly the collaborator interface the spec gives.
 - The zbus structural-match primitive `MatchRule::matches` (an external
   library call) is a parameter of the evaluator, a function returning
   `Except String Bool`; a concrete instance `stageA` modelled from the
   spec's description of the baseline filter is used for closed
   evaluations.
 - A Rust panic (`expect` on a missing header field) is modelled as
   `Option.none`: the evaluator returns `Option Bool`, where `none`
   means the evaluation aborted.
 - The `HashSet<OwnedMatchRule>` is modelled by its set of values as a
   duplicate-free list: `insert` adds the rule only when absent,
   `remove` erases it and reports whether it was present.
-/

namespace Busd

/-- A D-Bus bus name: either a unique (connection) name or a well-known
name, mirroring `zbus::names::BusName`. -/
inductive BusName where
  | unique (n : String)
  | wellKnown (n : String)
deriving DecidableEq

/-- Modelled from the spec: the shared name-ownership registry
(`crate::name_registry::NameRegistry`, outside the given sources) is
represented by its lookup interface
`lookup(well_known_name) -> optional<unique_name>`. -/
def Registry : Type := String → Option String

/-- `NameRegistry::lookup`: the current owner (a unique name) of a
well-known name, if any. -/
def Registry.lookup (reg : Registry) (w : String) : Option String := reg w

/-- A match rule (`zbus::OwnedMatchRule`): an immutable, structurally
comparable filter value.  The sender criterion is a bus name; the
destination criterion is a unique name (zbus types it so); the remaining
structural criteria (interface, member, path, argument predicates) are
abstracted into one opaque `other` criterion, compared against the
message's `tag`, since no claim depends on their individual semantics. -/
structure MatchRule where
  sender : Option BusName
  destination : Option String
  other : Option String
deriving DecidableEq

/-- The header data of a `zbus::Message` that the evaluator inspects:
the SENDER field (a unique name) and the DESTINATION field (a bus
name), both optional on the wire; `tag` abstracts the remaining
attributes consulted by the structural-match primitive. -/
structure Message where
  sender : Option String
  destination : Option BusName
  tag : String
deriving DecidableEq

/-- Modelled from the spec: the baseline structural-match primitive
(`zbus::MatchRule::matches`, an external library): it checks the
abstracted structural criteria and sender/destination equality only
when those names are already unique names, never resolving well-known
names. -/
def stageA (rule : MatchRule) (msg : Message) : Except String Bool :=
  Except.ok (
    (match rule.sender with
     | some (BusName.unique u) => msg.sender == some u
     | _ => true) &&
    (match rule.destination, msg.destination with
     | some d, some (BusName.unique u) => u == d
     | _, _ => true) &&
    (match rule.other with
     | some t => t == msg.tag
     | none => true))

/-- The manual sender-resolution step of `Peer::interested`:
`rule.sender().cloned().and_then(|name| match name {
   BusName::WellKnown(name) => dbus.name_registry.lookup(name)...,
   BusName::Unique(_) => None })`. -/
def senderResolved (reg : Registry) (rule : MatchRule) : Option String :=
  rule.sender.bind fun n =>
    match n with
    | BusName.wellKnown w => reg.lookup w
    | BusName.unique _ => none

/-- The manual destination step of `Peer::interested`: when the rule has
a destination criterion, the message's DESTINATION field is read
(`expect` panic when absent, modelled as `none`); a well-known message
destination is resolved through the registry and its owner compared to
the rule's criterion (no owner fails the rule); a unique message
destination was already handled by the structural primitive. -/
def destStage (reg : Registry) (rule : MatchRule) (msg : Message) : Option Bool :=
  match rule.destination with
  | none => some true
  | some d =>
    match msg.destination with
    | none => none
    | some (BusName.wellKnown w) =>
      match reg.lookup w with
      | some owner => some (owner == d)
      | none => some false
    | some (BusName.unique _) => some true

/-- The per-rule body of the `any` closure in `Peer::interested`:
structural match first (an internal error only fails the rule), then
the manual sender step (reading SENDER via `expect`, modelled as `none`
when absent), then the destination step. -/
def rulePasses (sM : MatchRule → Message → Except String Bool) (reg : Registry)
    (rule : MatchRule) (msg : Message) : Option Bool :=
  match sM rule msg with
  | Except.error _ => some false
  | Except.ok false => some false
  | Except.ok true =>
    match senderResolved reg rule with
    | some owner =>
      match msg.sender with
      | none => none
      | some s => if owner = s then destStage reg rule msg else some false
    | none => destStage reg rule msg

/-- `Peer::interested`: `dbus.match_rules.iter().any(|rule| ...)`, with
short-circuiting; a panic (`none`) in an evaluated rule aborts the
whole evaluation. -/
def interested (sM : MatchRule → Message → Except String Bool) (reg : Registry) :
    List MatchRule → Message → Option Bool
  | [], _ => some false
  | rule :: rest, msg =>
    match rulePasses sM reg rule msg with
    | none => none
    | some true => some true
    | some false => interested sM reg rest msg

/-- The error type of the core interface, mirroring the `zbus::fdo`
errors raised in `peer.rs`. -/
inductive FdoError where
  | failed (msg : String)
  | nameHasNoOwner (msg : String)
  | matchRuleNotFound (msg : String)
deriving DecidableEq

/-- The `DBus` interface state of `peer.rs` (the registry handle is
passed separately to the handlers that consult it). -/
structure DBus where
  greeted : Bool
  unique_name : String
  match_rules : List MatchRule
deriving DecidableEq

/-- `DBus::new`. -/
def DBus.new (unique_name : String) : DBus :=
  { greeted := false, unique_name := unique_name, match_rules := [] }

/-- `DBus::hello`: fails when already greeted, otherwise marks the
connection greeted and returns its unique name. -/
def hello (d : DBus) : Except FdoError String × DBus :=
  if d.greeted then
    (Except.error (FdoError.failed "Can only call `Hello` method once"), d)
  else
    (Except.ok d.unique_name, { d with greeted := true })

/-- `DBus::get_name_owner`: a well-known name is resolved through the
registry (no owner is an error); a unique name is returned unchanged. -/
def get_name_owner (reg : Registry) (name : BusName) : Except FdoError String :=
  match name with
  | BusName.wellKnown w =>
    match reg.lookup w with
    | some owner => Except.ok owner
    | none => Except.error
        (FdoError.nameHasNoOwner "Name is not owned by anyone. Take it!")
  | BusName.unique u => Except.ok u

/-- `DBus::add_match`: `self.match_rules.insert(rule)` on the hash set,
modelled on the duplicate-free list (inserted only when absent). -/
def add_match (d : DBus) (r : MatchRule) : DBus :=
  { d with match_rules := d.match_rules.insert r }

/-- `DBus::remove_match`: `self.match_rules.remove(&rule)`; when the
rule was not present the state is left alone and a `MatchRuleNotFound`
error is returned. -/
def remove_match (d : DBus) (r : MatchRule) : Except FdoError Unit × DBus :=
  if r ∈ d.match_rules then
    (Except.ok (), { d with match_rules := d.match_rules.erase r })
  else
    (Except.error (FdoError.matchRuleNotFound "No such match rule"), d)

/-- `Peer::new`'s unique-name assignment:
`OwnedUniqueName::try_from(format!(":busd.:id"))` with `:id` the decimal
rendering of the connection id. -/
def uniqueNameOf (id : Nat) : String := ":busd." ++ Nat.repr id

/-! Concrete fixtures used for closed evaluations and witnesses. -/

/-- A rule whose sender criterion is the well-known name
`org.example.Foo`, with no other criteria. -/
def rFoo : MatchRule :=
  { sender := some (BusName.wellKnown "org.example.Foo"),
    destination := none, other := none }

/-- A rule whose only criterion is the destination unique name
`:busd.9`. -/
def rDst : MatchRule :=
  { sender := none, destination := some ":busd.9", other := none }

/-- A registry in which no well-known name is owned. -/
def regEmpty : Registry := fun _ => none

/-- A registry in which `org.example.Foo` is owned by `:busd.7` and
nothing else is owned. -/
def regFoo : Registry := fun w =>
  if w = "org.example.Foo" then some ":busd.7" else none

/-- A broadcast message sent by `:busd.7` (no destination). -/
def msg7 : Message := { sender := some ":busd.7", destination := none, tag := "sig" }

/-- A message missing the SENDER header field. -/
def msgNoSender : Message := { sender := none, destination := none, tag := "sig" }

/-- A message missing the DESTINATION header field (but carrying a
sender). -/
def msgNoDest : Message := { sender := some ":busd.7", destination := none, tag := "sig2" }

/-- A message addressed to the currently unowned well-known name
`org.no.Owner`. -/
def msgDstUnowned : Message :=
  { sender := some ":busd.7", destination := some (BusName.wellKnown "org.no.Owner"),
    tag := "sig" }

/-- A structural-match primitive that always reports an internal
error. -/
def sMErr : MatchRule → Message → Except String Bool := fun _ _ => Except.error "boom"

/-- A connection state whose rule set already holds `rFoo`. -/
def d1 : DBus := { greeted := false, unique_name := ":busd.1", match_rules := [rFoo] }

/-- The numeric value of a decimal digit character (used to invert the
decimal rendering of `Peer::new`'s unique-name assignment). -/
def digitVal (c : Char) : Nat := c.toNat - 48

/-- The numeric value of a decimal digit string, most significant digit
first. -/
def digitsVal (l : List Char) : Nat := l.foldl (fun a c => 10 * a + digitVal c) 0

/-! Theorems. -/

theorem digitsVal_append_singleton (l : List Char) (c : Char) :
    digitsVal (l ++ [c]) = 10 * digitsVal l + digitVal c := by
  simp [digitsVal, List.foldl_append]

theorem digitVal_digitChar : ∀ d : Nat, d < 10 → digitVal (Nat.digitChar d) = d := by decide

theorem toDigitsCore_accum (fuel : Nat) :
    ∀ (n : Nat) (acc : List Char),
      Nat.toDigitsCore 10 fuel n acc = Nat.toDigitsCore 10 fuel n [] ++ acc := by
  induction fuel with
  | zero => intro n acc; simp [Nat.toDigitsCore]
  | succ f ih =>
    intro n acc
    simp only [Nat.toDigitsCore]
    by_cases h : n / 10 = 0
    · simp [h]
    · simp only [h, if_false]
      rw [ih (n / 10) (Nat.digitChar (n % 10) :: acc), ih (n / 10) [Nat.digitChar (n % 10)]]
      simp

theorem digitsVal_toDigitsCore (fuel : Nat) :
    ∀ n : Nat, n < fuel → digitsVal (Nat.toDigitsCore 10 fuel n []) = n := by
  induction fuel with
  | zero => intro n h; omega
  | succ f ih =>
    intro n h
    simp only [Nat.toDigitsCore]
    by_cases h0 : n / 10 = 0
    · simp only [h0, if_true]
      have hn : n < 10 := by omega
      have hmod : n % 10 = n := Nat.mod_eq_of_lt hn
      simp [digitsVal, hmod, digitVal_digitChar n hn]
    · simp only [h0, if_false]
      rw [toDigitsCore_accum, digitsVal_append_singleton,
        ih (n / 10) (by omega), digitVal_digitChar (n % 10) (by omega)]
      omega

theorem nat_repr_inj (m n : Nat) (h : Nat.repr m = Nat.repr n) : m = n := by
  have hm : Nat.toDigits 10 m = Nat.toDigits 10 n := congrArg String.data h
  have hm2 : Nat.toDigitsCore 10 (m + 1) m [] = Nat.toDigitsCore 10 (n + 1) n [] := hm
  calc m = digitsVal (Nat.toDigitsCore 10 (m + 1) m []) :=
        (digitsVal_toDigitsCore (m + 1) m (Nat.lt_succ_self m)).symm
    _ = digitsVal (Nat.toDigitsCore 10 (n + 1) n []) := by rw [hm2]
    _ = n := digitsVal_toDigitsCore (n + 1) n (Nat.lt_succ_self n)

/-- Claim C5: `GetNameOwner` on a well-known name fails with the
"no owner" error exactly when the registry's lookup returns none at
call time, otherwise it returns the owner the registry reports; on a
unique name it returns that same name unchanged, without any liveness
check. -/
theorem C5_get_name_owner (reg : Registry) (w u : String) :
    (get_name_owner reg (BusName.wellKnown w) =
        Except.error (FdoError.nameHasNoOwner "Name is not owned by anyone. Take it!")
      ↔ reg.lookup w = none) ∧
    (reg.lookup w = some u → get_name_owner reg (BusName.wellKnown w) = Except.ok u) ∧
    get_name_owner reg (BusName.unique u) = Except.ok u := by
  refine ⟨?_, ?_, rfl⟩
  · cases h : reg.lookup w <;> simp [get_name_owner, h]
  · intro h; simp [get_name_owner, h]

/-- Witness for C5 at a concrete registry and name. -/
theorem C5_get_name_owner_witness :
    Registry.lookup regFoo "org.example.Foo" = some ":busd.7" ∧
    get_name_owner regFoo (BusName.wellKnown "org.example.Foo") = Except.ok ":busd.7" :=
  ⟨by decide, (C5_get_name_owner regFoo "org.example.Foo" ":busd.7").2.1 (by decide)⟩

/-- Claim C6: the first `Hello` returns the connection's unique name
and flips `greeted` from false to true; every later `Hello` fails with
the "called more than once" error and leaves `greeted` true; `hello`
never changes anything else and after it `greeted` is always true. -/
theorem C6_hello_once (d : DBus) :
    (d.greeted = false → hello d = (Except.ok d.unique_name, { d with greeted := true })) ∧
    (d.greeted = true →
      hello d = (Except.error (FdoError.failed "Can only call `Hello` method once"), d)) ∧
    (hello d).2.greeted = true ∧
    (hello d).2.unique_name = d.unique_name ∧
    (hello d).2.match_rules = d.match_rules := by
  cases d with
  | mk g u ml => cases g <;> simp [hello]

/-- Witness for C6 on a freshly constructed connection. -/
theorem C6_hello_once_witness :
    (DBus.new ":busd.1").greeted = false ∧
    hello (DBus.new ":busd.1") =
      (Except.ok ":busd.1", { DBus.new ":busd.1" with greeted := true }) :=
  ⟨rfl, (C6_hello_once (DBus.new ":busd.1")).1 rfl⟩

/-- Claim C9: `AddMatch` is idempotent, a duplicate insert is a no-op
rather than an error, and the rule set stays duplicate-free. -/
theorem C9_add_match_idempotent (d : DBus) (r : MatchRule) :
    add_match (add_match d r) r = add_match d r ∧
    (r ∈ d.match_rules → add_match d r = d) ∧
    (d.match_rules.Nodup → (add_match d r).match_rules.Nodup) ∧
    (∀ u : String, (DBus.new u).match_rules.Nodup) := by
  refine ⟨?_, ?_, ?_, ?_⟩
  · have h : r ∈ (add_match d r).match_rules := List.mem_insert_self r d.match_rules
    simp [add_match, List.insert_of_mem h]
  · intro h
    simp [add_match, List.insert_of_mem h]
  · intro h
    exact h.insert
  · intro u
    exact List.nodup_nil

/-- Witness for C9: inserting an already-present rule is a no-op. -/
theorem C9_add_match_idempotent_witness :
    rFoo ∈ d1.match_rules ∧ add_match d1 rFoo = d1 :=
  ⟨by decide, (C9_add_match_idempotent d1 rFoo).2.1 (by decide)⟩

/-- Claim C10: `RemoveMatch` is atomic with respect to its error: on
the "rule not found" error the whole state is returned unchanged; on
success only the single rule `r` is removed (on a duplicate-free set,
membership afterwards is membership before minus exactly `r`) and the
rest of the state is untouched. -/
theorem C10_remove_match_atomic (d : DBus) (r : MatchRule) :
    (r ∉ d.match_rules →
      remove_match d r = (Except.error (FdoError.matchRuleNotFound "No such match rule"), d)) ∧
    (r ∈ d.match_rules →
      (remove_match d r).1 = Except.ok () ∧
      (remove_match d r).2.greeted = d.greeted ∧
      (remove_match d r).2.unique_name = d.unique_name ∧
      (remove_match d r).2.match_rules = d.match_rules.erase r) ∧
    (d.match_rules.Nodup →
      ∀ s : MatchRule, s ∈ (remove_match d r).2.match_rules ↔ s ≠ r ∧ s ∈ d.match_rules) := by
  refine ⟨?_, ?_, ?_⟩
  · intro h
    simp [remove_match, h]
  · intro h
    simp [remove_match, h]
  · intro hnd s
    by_cases h : r ∈ d.match_rules
    · simp [remove_match, h, hnd.mem_erase_iff]
    · simp only [remove_match, if_neg h]
      constructor
      · intro hs
        refine ⟨?_, hs⟩
        rintro rfl
        exact h hs
      · intro hs
        exact hs.2

/-- Witness for C10: removing a present rule succeeds and erases it. -/
theorem C10_remove_match_atomic_witness :
    rFoo ∈ d1.match_rules ∧ (remove_match d1 rFoo).1 = Except.ok () :=
  ⟨by decide, ((C10_remove_match_atomic d1 rFoo).2.1 (by decide)).1⟩

/-- Counterexample to claim C3 as stated: starting from a rule set
that already contains `rFoo`, `AddMatch(rFoo)` is a no-op and the
following `RemoveMatch(rFoo)` removes the pre-existing rule, so the
round trip does not restore the starting rule set. -/
theorem C3_counterexample :
    (remove_match (add_match d1 rFoo) rFoo).2 ≠ d1 ∧
    (remove_match (add_match d1 rFoo) rFoo).2.match_rules = [] := by
  decide

/-- Claim C3 (amended): when `r` is not already in the rule set,
`AddMatch(r)` followed by `RemoveMatch(r)` restores exactly the state
from before the `AddMatch(r)` call; `RemoveMatch(r)` on a rule set not
containing `r` fails with the "rule not found" error and changes
nothing. -/
theorem C3_roundtrip (d : DBus) (r : MatchRule) :
    (r ∉ d.match_rules → remove_match (add_match d r) r = (Except.ok (), d)) ∧
    (r ∉ d.match_rules →
      remove_match d r = (Except.error (FdoError.matchRuleNotFound "No such match rule"), d)) := by
  constructor
  · intro h
    simp [remove_match, add_match, List.insert_of_not_mem h, List.erase_cons_head]
  · intro h
    simp [remove_match, h]

/-- Witness for C3 (amended) on a fresh connection and a concrete
rule. -/
theorem C3_roundtrip_witness :
    rFoo ∉ (DBus.new ":busd.1").match_rules ∧
    remove_match (add_match (DBus.new ":busd.1") rFoo) rFoo =
      (Except.ok (), DBus.new ":busd.1") :=
  ⟨by decide, (C3_roundtrip (DBus.new ":busd.1") rFoo).1 (by decide)⟩

/-- Claim C1, evaluated at the failing input: the rule's sender
criterion is the well-known name `org.example.Foo`, the registry
reports no owner for it, yet the evaluator reports interest — the
unowned sender criterion is silently skipped instead of failing the
rule as the claim (and the protocol) requires. -/
theorem C1_unowned_sender_rule_passes :
    rFoo.sender = some (BusName.wellKnown "org.example.Foo") ∧
    Registry.lookup regEmpty "org.example.Foo" = none ∧
    msg7.sender = some ":busd.7" ∧
    interested stageA regEmpty [rFoo] msg7 = some true := by
  decide

/-- Counterexample to claim C2 as stated: with an owned well-known
sender criterion and a message whose SENDER field is absent, the
evaluation aborts (`none`, modelling the source's `expect` panic)
instead of failing closed with `some false`. -/
theorem C2_counterexample :
    Registry.lookup regFoo "org.example.Foo" = some ":busd.7" ∧
    msgNoSender.sender = none ∧
    interested stageA regFoo [rFoo] msgNoSender = none ∧
    interested stageA regFoo [rFoo] msgNoSender ≠ some false := by
  decide

/-- Claim C2 (amended): when a message the evaluator must inspect lacks
a required header field — the SENDER field while a rule's well-known
sender criterion resolved to an owner, or the DESTINATION field while a
rule has a destination criterion — the evaluation of `interested`
aborts (panics, modelled as `none`) rather than failing closed; the
evaluator itself is a read-only function of the rule set, so no
connection state is modified. -/
theorem C2_missing_header_panics (sM : MatchRule → Message → Except String Bool)
    (reg : Registry) (rule : MatchRule) (rest : List MatchRule) (msg : Message) :
    (sM rule msg = Except.ok true → (senderResolved reg rule).isSome → msg.sender = none →
      interested sM reg (rule :: rest) msg = none) ∧
    (sM rule msg = Except.ok true → senderResolved reg rule = none → rule.destination.isSome →
      msg.destination = none → interested sM reg (rule :: rest) msg = none) := by
  constructor
  · intro h1 h2 h3
    obtain ⟨owner, ho⟩ := Option.isSome_iff_exists.mp h2
    simp [interested, rulePasses, h1, ho, h3]
  · intro h1 h2 h3 h4
    obtain ⟨dcrit, hd⟩ := Option.isSome_iff_exists.mp h3
    simp [interested, rulePasses, destStage, h1, h2, hd, h4]

/-- Witness for C2 (amended) at a concrete input. -/
theorem C2_missing_header_panics_witness :
    interested stageA regFoo [rFoo] msgNoSender = none :=
  (C2_missing_header_panics stageA regFoo rFoo [] msgNoSender).1 rfl (by decide) rfl

/-- Claim C4: `interested` returns false on an empty rule set; a rule
with a destination criterion fails when the well-known destination name
being resolved against the registry (the message's DESTINATION field —
in the source a rule's own destination criterion is typed as a unique
name) currently has no owner; and when every rule fails the overall
result is false. -/
theorem C4_empty_or_unowned_destination (sM : MatchRule → Message → Except String Bool)
    (reg : Registry) (msg : Message) :
    interested sM reg [] msg = some false ∧
    (∀ (rule : MatchRule) (w : String),
      msg.sender.isSome → rule.destination.isSome →
      msg.destination = some (BusName.wellKnown w) → reg.lookup w = none →
      rulePasses sM reg rule msg = some false) ∧
    (∀ rules : List MatchRule,
      (∀ r ∈ rules, rulePasses sM reg r msg = some false) →
      interested sM reg rules msg = some false) := by
  refine ⟨rfl, ?_, ?_⟩
  · intro rule w hs hd hw hl
    obtain ⟨dcrit, hdc⟩ := Option.isSome_iff_exists.mp hd
    obtain ⟨s, hsc⟩ := Option.isSome_iff_exists.mp hs
    have hdst : destStage reg rule msg = some false := by
      simp [destStage, hdc, hw, hl]
    cases hA : sM rule msg with
    | error e => simp [rulePasses, hA]
    | ok b =>
      cases b with
      | false => simp [rulePasses, hA]
      | true =>
        cases hr : senderResolved reg rule with
        | none => simp [rulePasses, hA, hr, hdst]
        | some owner =>
          rcases eq_or_ne owner s with he | he <;>
            simp [rulePasses, hA, hr, hsc, he, hdst]
  · intro rules h
    induction rules with
    | nil => rfl
    | cons r rest ih =>
      have hr := h r (List.mem_cons_self r rest)
      simp only [interested, hr]
      exact ih fun x hx => h x (List.mem_cons_of_mem r hx)

/-- Witness for C4: a rule with a destination criterion fails against a
message addressed to an unowned well-known name, and the evaluator
reports no interest. -/
theorem C4_empty_or_unowned_destination_witness :
    rulePasses stageA regFoo rDst msgDstUnowned = some false ∧
    interested stageA regFoo [rDst] msgDstUnowned = some false := by
  have h := C4_empty_or_unowned_destination stageA regFoo msgDstUnowned
  have h1 : rulePasses stageA regFoo rDst msgDstUnowned = some false :=
    h.2.1 rDst "org.no.Owner" (by decide) (by decide) (by decide) (by decide)
  refine ⟨h1, h.2.2 [rDst] ?_⟩
  intro r hr
  rw [List.mem_singleton.mp hr]
  exact h1

/-- Claim C7: an internal error from the structural-match primitive
only fails that single rule — it is not propagated out of
`interested` — and the remaining rules are still evaluated, with the
overall result determined by them. -/
theorem C7_match_error_fails_rule (sM : MatchRule → Message → Except String Bool)
    (reg : Registry) (rule : MatchRule) (rest : List MatchRule) (msg : Message)
    (e : String) (h : sM rule msg = Except.error e) :
    rulePasses sM reg rule msg = some false ∧
    interested sM reg (rule :: rest) msg = interested sM reg rest msg := by
  have h1 : rulePasses sM reg rule msg = some false := by simp [rulePasses, h]
  exact ⟨h1, by simp [interested, h1]⟩

/-- Witness for C7 with an always-erroring structural primitive. -/
theorem C7_match_error_fails_rule_witness :
    sMErr rFoo msg7 = Except.error "boom" ∧
    rulePasses sMErr regFoo rFoo msg7 = some false ∧
    interested sMErr regFoo [rFoo] msg7 = interested sMErr regFoo [] msg7 :=
  ⟨rfl, (C7_match_error_fails_rule sMErr regFoo rFoo [] msg7 "boom" rfl).1,
    (C7_match_error_fails_rule sMErr regFoo rFoo [] msg7 "boom" rfl).2⟩

/-- Claim C8: a connection constructed with id `n` is assigned the
unique name `":busd."` followed by the decimal rendering of `n`, and
the assignment is injective: distinct ids never yield the same unique
name. -/
theorem C8_unique_name_injective (m n : Nat) :
    uniqueNameOf m = ":busd." ++ Nat.repr m ∧
    (uniqueNameOf m = uniqueNameOf n → m = n) := by
  refine ⟨rfl, fun h => ?_⟩
  have hd : ":busd.".data ++ (Nat.repr m).data = ":busd.".data ++ (Nat.repr n).data :=
    congrArg String.data h
  have hd2 : (Nat.repr m).data = (Nat.repr n).data := List.append_cancel_left hd
  have hr : Nat.repr m = Nat.repr n := by
    have := congrArg List.asString hd2
    simpa [Nat.repr, List.asString] using this
  exact nat_repr_inj m n hr

/-- Witness for C8 at a concrete id. -/
theorem C8_unique_name_injective_witness :
    uniqueNameOf 3 = ":busd." ++ Nat.repr 3 ∧ (3 : Nat) = 3 :=
  ⟨(C8_unique_name_injective 3 3).1, (C8_unique_name_injective 3 3).2 rfl⟩

end Busd
